import Mathlib

/-!
# Verification of `notebook_v1.py`

A shallow embedding of the notebook data model and its three serializers
(JSON `Serializer`, `PyPercentSerializer`, `Outliner`).  Python strings are
modelled as `List Char`, Python dicts holding cell data as structures with
`Option` fields (a `none` field models an absent key), and fallible Python
code (`KeyError`, `ValueError`) as `Except PyErr`.
-/

namespace NotebookV1

/-- Python strings are modelled as lists of characters. -/
abbrev Str := List Char

/-- Turn a Lean string literal into the `List Char` model. -/
def chars (s : String) : Str := s.data

/-- The characters removed by Python's default `str.strip()`
(ASCII whitespace: space, tab, LF, CR, VT, FF; rarer Unicode
whitespace is not modelled since no input here contains it). -/
def isSpaceChar (c : Char) : Bool :=
  c = ' ' || c = '\t' || c = '\n' || c = '\r' || c = '\x0b' || c = '\x0c'

/-- Model of Python `str.strip()`: remove leading and trailing whitespace. -/
def stripChars (s : Str) : Str :=
  ((s.dropWhile isSpaceChar).reverse.dropWhile isSpaceChar).reverse

/-- The decimal digit characters. -/
def isDigitChar (c : Char) : Bool := decide (c ∈ chars "0123456789")

/-- Numeric value of a decimal digit character. -/
def digitVal (c : Char) : Nat := c.toNat - 48

/-- Every character is a decimal digit. -/
def allDigits (s : Str) : Bool := s.all isDigitChar

/-- Value of a string of decimal digits, most significant first. -/
def natValOfDigits (s : Str) : Nat := s.foldl (fun a c => 10 * a + digitVal c) 0

/-- Core of Python's `int(str)` after whitespace stripping: an optional
sign followed by a nonempty run of decimal digits.  (Python additionally
accepts underscore separators and non-ASCII digits; no input in this
development contains either, so they are not modelled.) -/
def pyIntCore : Str → Option Int
  | [] => none
  | c :: rest =>
    if c = '+' then
      if !rest.isEmpty && allDigits rest then some (natValOfDigits rest) else none
    else if c = '-' then
      if !rest.isEmpty && allDigits rest then some (-(natValOfDigits rest : Int)) else none
    else
      if allDigits (c :: rest) then some ((natValOfDigits (c :: rest) : Nat) : Int) else none

/-- Model of Python's `int(str)` conversion; `none` models `ValueError`. -/
def pyIntParse (s : Str) : Option Int := pyIntCore (stripChars s)

/-- Model of Python `str.split('.')`. -/
def splitDot : Str → List Str
  | [] => [[]]
  | c :: cs =>
    if c = '.' then [] :: splitDot cs
    else
      match splitDot cs with
      | [] => [[c]]
      | g :: gs => (c :: g) :: gs

/-- Reversed decimal digits of `n`, with explicit fuel (the fuel makes the
definition structural; `fuel > n` is always enough). -/
def natDigitsRevFuel : Nat → Nat → Str
  | 0, _ => []
  | fuel + 1, n =>
    if n < 10 then [Nat.digitChar n]
    else Nat.digitChar (n % 10) :: natDigitsRevFuel fuel (n / 10)

/-- Model of Python `str(n)` for a natural number. -/
def natToChars (n : Nat) : Str := (natDigitsRevFuel (n + 1) n).reverse

/-- Model of Python `str(i)` for an integer. -/
def intToChars (i : Int) : Str :=
  if i < 0 then '-' :: natToChars i.natAbs else natToChars i.toNat

/-- A Python value stored under a dict key that may hold either an
integer or a string (only these occur in `cell_type` fields). -/
inductive PyVal where
  | int (i : Int)
  | str (s : Str)
deriving DecidableEq, Repr

/-- Errors raised by the Python code: `KeyError` (missing dict key,
the spec's `MissingFieldError`) and `ValueError` (failed unpacking or
`int()` conversion, the spec's `MalformedVersionError`). -/
inductive PyErr where
  | keyError (key : Str)
  | valueError
deriving DecidableEq, Repr

instance {ε α : Type} [DecidableEq ε] [DecidableEq α] :
    DecidableEq (Except ε α) := fun x y =>
  match x, y with
  | Except.ok a, Except.ok b =>
    if h : a = b then isTrue (by rw [h])
    else isFalse (by intro he; cases he; exact h rfl)
  | Except.error a, Except.error b =>
    if h : a = b then isTrue (by rw [h])
    else isFalse (by intro he; cases he; exact h rfl)
  | Except.ok _, Except.error _ => isFalse (by intro he; cases he)
  | Except.error _, Except.ok _ => isFalse (by intro he; cases he)

/-- A raw cell dictionary.  A `none` field models an absent key. -/
structure RawCell where
  cell_type : Option PyVal
  id : Option Str
  source : Option (List Str)
  execution_count : Option Int
  outputs : Option (List PyVal)
  metadata : Option (List (Str × PyVal))
deriving DecidableEq, Repr

/-- A raw notebook dictionary (top-level interchange structure). -/
structure RawNotebook where
  cells : List RawCell
  nbformat : Int
  nbformat_minor : Int
  metadata : List (Str × PyVal)
deriving DecidableEq, Repr

/-- Model of Python dict access `d[key]`: `KeyError` when absent. -/
def dictGet (v : Option α) (key : Str) : Except PyErr α :=
  match v with
  | some x => Except.ok x
  | none => Except.error (PyErr.keyError key)

/-- A notebook cell.  `Notebook.__init__` only ever constructs `CodeCell`
or `MarkdownCell` instances, so the `Cell` hierarchy is a closed sum of
the two variants, each carrying the attributes its `__init__` sets. -/
inductive Cell where
  | code (id : Str) (source : List Str) (execution_count : Int)
  | markdown (id : Str) (source : List Str)
deriving DecidableEq, Repr

/-- The cell's `id` attribute. -/
def cellId : Cell → Str
  | .code i _ _ => i
  | .markdown i _ => i

/-- The cell's `source` attribute. -/
def sourceOf : Cell → List Str
  | .code _ s _ => s
  | .markdown _ s => s

/-- Translation of `Cell.__init__`: reads `ipynb['id']` then `ipynb['source']`. -/
def cellInit (ipynb : RawCell) : Except PyErr (Str × List Str) :=
  match ipynb.id with
  | none => Except.error (PyErr.keyError (chars "id"))
  | some i =>
    match ipynb.source with
    | none => Except.error (PyErr.keyError (chars "source"))
    | some s => Except.ok (i, s)

/-- Translation of `CodeCell.__init__`: reads `ipynb['execution_count']`, then calls
`Cell.__init__`. -/
def codeCellInit (ipynb : RawCell) : Except PyErr Cell :=
  match ipynb.execution_count with
  | none => Except.error (PyErr.keyError (chars "execution_count"))
  | some ec =>
    match cellInit ipynb with
    | Except.error e => Except.error e
    | Except.ok (i, s) => Except.ok (Cell.code i s ec)

/-- Translation of `MarkdownCell.__init__`: just `Cell.__init__`. -/
def markdownCellInit (ipynb : RawCell) : Except PyErr Cell :=
  match cellInit ipynb with
  | Except.error e => Except.error e
  | Except.ok (i, s) => Except.ok (Cell.markdown i s)

/-- Modelled from the spec: `notebook_v0.get_format_version` is imported as
`toolbox` and its code is not under `src/`; spec section 6 says the
collaborator combines the top-level `nbformat` and `nbformat_minor`
integers into a `"major.minor"` string. -/
def get_format_version (ipynb : RawNotebook) : Str :=
  intToChars ipynb.nbformat ++ ['.'] ++ intToChars ipynb.nbformat_minor

/-- The in-memory notebook: `version` string plus the `cells` list. -/
structure Notebook where
  version : Str
  cells : List Cell
deriving DecidableEq, Repr

/-- The cell-construction loop of `Notebook.__init__`: for each raw cell,
read `cell['cell_type']`; if it equals `'code'` append a `CodeCell`; if it
equals `'markdown'` append a `MarkdownCell`; otherwise append nothing.
(The source reads `cell['cell_type']` in two separate `if` statements;
the dict is unchanged between the two reads, so one read is faithful.) -/
def buildCells : List RawCell → Except PyErr (List Cell)
  | [] => Except.ok []
  | c :: rest =>
    match dictGet c.cell_type (chars "cell_type") with
    | Except.error e => Except.error e
    | Except.ok ct =>
      match (if ct = PyVal.str (chars "code") then
              (codeCellInit c).map (fun x => [x])
             else Except.ok []) with
      | Except.error e => Except.error e
      | Except.ok acc1 =>
        match (if ct = PyVal.str (chars "markdown") then
                (markdownCellInit c).map (fun x => acc1 ++ [x])
               else Except.ok acc1) with
        | Except.error e => Except.error e
        | Except.ok acc2 =>
          match buildCells rest with
          | Except.error e => Except.error e
          | Except.ok restCells => Except.ok (acc2 ++ restCells)

/-- Translation of `Notebook.__init__`: version from the collaborator, then the cell
loop. -/
def notebookInit (ipynb : RawNotebook) : Except PyErr Notebook :=
  match buildCells ipynb.cells with
  | Except.error e => Except.error e
  | Except.ok cs => Except.ok ⟨get_format_version ipynb, cs⟩

/-- Translation of `Notebook.__iter__`: `iter(self.cells)`, i.e. the cells in document
order. -/
def nbIterate (nb : Notebook) : List Cell := nb.cells

/-- Model of Python `sep.join(list)`. -/
def joinSep (sep : Str) : List Str → Str
  | [] => []
  | [x] => x
  | x :: xs => x ++ sep ++ joinSep sep xs

/-- The text appended for one cell by the loop of
`PyPercentSerializer.to_py_percent`. -/
def pyPercentCellText (cell : Cell) : Str :=
  match cell with
  | .markdown _ source =>
    chars "\n# %% [markdown]\n" ++
      (chars "# " ++ joinSep (chars "\n# ") (source.map stripChars)) ++ ['\n']
  | .code _ source _ =>
    chars "\n# %%\n" ++ joinSep (chars "\n") (source.map stripChars) ++ ['\n']

/-- Translation of `PyPercentSerializer.to_py_percent`: accumulate each cell's block and
strip the whole text. -/
def to_py_percent (nb : Notebook) : Str :=
  stripChars ((nb.cells.map pyPercentCellText).flatten)

/-- The glyph chosen by `Outliner.outline` for one source line (`start`
in the source): content-compared against `source[0]` and `source[-1]`. -/
def outlineLineStart (source : List Str) (line : Str) : Str :=
  if 1 < source.length then
    if line = source.headD [] then chars "┌ "
    else if line = source.getLastD [] then chars "└ "
    else chars "│ "
  else chars "|"

/-- The header line emitted by `Outliner.outline` for one cell
(markdown cells get no execution-count suffix). -/
def outlineCellHeader (cell : Cell) : Str :=
  match cell with
  | .markdown i _ => chars "└─▶ Markdown cell #" ++ i ++ ['\n']
  | .code i _ ec =>
    chars "└─▶ Code cell #" ++ i ++ chars " (" ++ intToChars ec ++ chars ")\n"

/-- The text appended for one cell by the loop of `Outliner.outline`. -/
def outlineCellText (cell : Cell) : Str :=
  outlineCellHeader cell ++
    ((sourceOf cell).map (fun line =>
      chars "    " ++ outlineLineStart (sourceOf cell) line ++ [' '] ++
        stripChars line ++ ['\n'])).flatten

/-- Translation of `Outliner.outline`: header line, each cell's block, then `text[:-1]`
(drop the final character). -/
def outline (nb : Notebook) : Str :=
  (chars "Jupyter Notebook v" ++ nb.version ++ ['\n'] ++
    (nb.cells.map outlineCellText).flatten).dropLast

/-- The per-cell dict literal of `Serializer.serialize` before the
`isinstance` branches run: `cell_type` holds the placeholder `0`. -/
def serializeCellBase (cell : Cell) : RawCell :=
  ⟨some (PyVal.int 0), some (cellId cell), some (sourceOf cell),
   none, none, some []⟩

/-- The dict appended for one cell by `Serializer.serialize`: the
placeholder `cell_type` is overwritten in both branches, and code cells
additionally get `execution_count` and empty `outputs`. -/
def serializeCell (cell : Cell) : RawCell :=
  match cell with
  | .markdown _ _ =>
    { serializeCellBase cell with cell_type := some (PyVal.str (chars "markdown")) }
  | .code _ _ ec =>
    { serializeCellBase cell with
        cell_type := some (PyVal.str (chars "code")),
        execution_count := some ec,
        outputs := some [] }

/-- Translation of `Serializer.serialize`: split the version on `'.'` into exactly two
parts (a failed unpacking raises `ValueError`), convert both with `int()`
(`ValueError` on failure), then emit the top-level dict with every cell
serialized in order. -/
def serialize (nb : Notebook) : Except PyErr RawNotebook :=
  match splitDot nb.version with
  | [n1, n2] =>
    match pyIntParse n1, pyIntParse n2 with
    | some i1, some i2 =>
      Except.ok ⟨nb.cells.map serializeCell, i1, i2, []⟩
    | _, _ => Except.error PyErr.valueError
  | _ => Except.error PyErr.valueError

/-- The function `Except.isOk` spelled out for this development. -/
def exceptOk : Except ε α → Bool
  | Except.ok _ => true
  | Except.error _ => false

/-- A version string in the canonical form the collaborator produces:
the decimal digits of a major part, a dot, the decimal digits of a minor
part. -/
def wellFormedVersion (v : Str) : Prop :=
  ∃ a b : Nat, v = natToChars a ++ ['.'] ++ natToChars b

/-- Spec-side characterisation of a version string `Serializer.serialize`
accepts: exactly one `'.'` and both halves numeric. -/
def goodVersionB (v : Str) : Bool :=
  decide (v.count '.' = 1) && (splitDot v).all (fun part => (pyIntParse part).isSome)

/-- The raw cell carries its recognised `cell_type` tag (`"code"` or
`"markdown"`). -/
def recognizedType (rc : RawCell) : Bool :=
  decide (rc.cell_type = some (PyVal.str (chars "code"))) ||
    decide (rc.cell_type = some (PyVal.str (chars "markdown")))

/-- The raw cell carries every key that `Notebook.__init__` will read
from it: `cell_type` always, and the constructor fields when the type is
recognised. -/
def rawCellWF (rc : RawCell) : Bool :=
  rc.cell_type.isSome &&
    (if rc.cell_type = some (PyVal.str (chars "code")) then
        rc.id.isSome && rc.source.isSome && rc.execution_count.isSome
      else true) &&
    (if rc.cell_type = some (PyVal.str (chars "markdown")) then
        rc.id.isSome && rc.source.isSome
      else true)

/-- Spec-side description of which cell (if any) `Notebook.__init__`
retains for one raw entry: `"code"` entries become `CodeCell`s,
`"markdown"` entries become `MarkdownCell`s, everything else is
dropped. -/
def specRetain (rc : RawCell) : Option Cell :=
  if rc.cell_type = some (PyVal.str (chars "code")) then (codeCellInit rc).toOption
  else if rc.cell_type = some (PyVal.str (chars "markdown")) then
    (markdownCellInit rc).toOption
  else none

/-- Spec-side restatement of the outliner's glyph choice, following the
claim's words: exactly one source line gives `"|"`; otherwise a line equal
to `source[0]` gives `"┌ "`, else a line equal to `source[-1]` gives
`"└ "`, else `"│ "`, the first-line check evaluated before the last-line
check. -/
def claimGlyph (source : List Str) (line : Str) : Str :=
  if source.length = 1 then chars "|"
  else if line = source.headD [] then chars "┌ "
  else if line = source.getLastD [] then chars "└ "
  else chars "│ "

/-- One iteration of the `to_py_percent` loop with the notebook threaded
through as explicit state (the loop body never assigns to the notebook). -/
def pyPercentStep (acc : Str × Notebook) (cell : Cell) : Str × Notebook :=
  (acc.1 ++ pyPercentCellText cell, acc.2)

/-- Version of `PyPercentSerializer.to_py_percent` with the notebook as explicit
state: the result text plus the notebook left behind. -/
def toPyPercentRun (nb : Notebook) : Str × Notebook :=
  ((nbIterate nb).foldl pyPercentStep ([], nb)).map stripChars id

/-- One iteration of the `outline` loop with the notebook threaded
through as explicit state. -/
def outlineStep (acc : Str × Notebook) (cell : Cell) : Str × Notebook :=
  (acc.1 ++ outlineCellText cell, acc.2)

/-- Version of `Outliner.outline` with the notebook as explicit state. -/
def outlineRun (nb : Notebook) : Str × Notebook :=
  ((nbIterate nb).foldl outlineStep
      (chars "Jupyter Notebook v" ++ nb.version ++ ['\n'], nb)).map List.dropLast id

/-- One iteration of the `serialize` loop with the notebook threaded
through as explicit state. -/
def serializeStep (acc : List RawCell × Notebook) (cell : Cell) :
    List RawCell × Notebook :=
  (acc.1 ++ [serializeCell cell], acc.2)

/-- Version of `Serializer.serialize` with the notebook as explicit state. -/
def serializeRun (nb : Notebook) : Except PyErr RawNotebook × Notebook :=
  match splitDot nb.version with
  | [n1, n2] =>
    match pyIntParse n1, pyIntParse n2 with
    | some i1, some i2 =>
      let r := (nbIterate nb).foldl serializeStep ([], nb)
      (Except.ok ⟨r.1, i1, i2, []⟩, r.2)
    | _, _ => (Except.error PyErr.valueError, nb)
  | _ => (Except.error PyErr.valueError, nb)

/-- The sample notebook with a single one-line code cell
`print("Hello world!")`, id `b777420a`. -/
def nbHello : Notebook :=
  ⟨chars "4.5", [Cell.code (chars "b777420a") [chars "print(\"Hello world!\")"] 1]⟩

/-- A sample notebook with one markdown and one code cell. -/
def nbMixed : Notebook :=
  ⟨chars "4.5",
   [Cell.markdown (chars "a9541506") [chars "Hello world!\n"],
    Cell.code (chars "b777420a") [chars "print(\"Hello world!\")"] 1]⟩

/-- The raw dict `Serializer.serialize` produces for `nbMixed`'s markdown
cell. -/
def rawMixedCellMd : RawCell :=
  ⟨some (PyVal.str (chars "markdown")), some (chars "a9541506"),
   some [chars "Hello world!\n"], none, none, some []⟩

/-- The raw dict `Serializer.serialize` produces for `nbMixed`'s code
cell. -/
def rawMixedCellCode : RawCell :=
  ⟨some (PyVal.str (chars "code")), some (chars "b777420a"),
   some [chars "print(\"Hello world!\")"], some 1, some [], some []⟩

/-- The raw notebook `Serializer.serialize` produces for `nbMixed`. -/
def rawMixed : RawNotebook := ⟨[rawMixedCellMd, rawMixedCellCode], 4, 5, []⟩

/-- A raw cell whose `cell_type` (`"raw"`) is recognised by neither
branch of the construction loop. -/
def rawUnknownCell : RawCell :=
  ⟨some (PyVal.str (chars "raw")), some (chars "c3d4e5f6"), some [chars "data"],
   none, none, some []⟩

/-- A raw notebook mixing a code cell, an unrecognised cell and a
markdown cell. -/
def rawSample : RawNotebook :=
  ⟨[rawMixedCellCode, rawUnknownCell, rawMixedCellMd], 4, 5, []⟩

/-! ## List and string lemmas -/

lemma dropWhile_eq_self_of_all {p : Char → Bool} {l : Str}
    (h : ∀ c ∈ l, p c = false) : l.dropWhile p = l := by
  cases l with
  | nil => rfl
  | cons a t =>
    rw [List.dropWhile_cons, h a (List.mem_cons_self a t)]
    simp

lemma dropWhile_head_false {p : Char → Bool} :
    ∀ {l : Str} {c : Char} {t : Str}, l.dropWhile p = c :: t → p c = false := by
  intro l
  induction l with
  | nil => intro c t h; simp [List.dropWhile] at h
  | cons a l ih =>
    intro c t h
    rw [List.dropWhile_cons] at h
    by_cases hp : p a
    · rw [if_pos hp] at h; exact ih h
    · rw [if_neg hp] at h
      cases h
      simpa using hp

lemma dropWhile_getLast? {p : Char → Bool} :
    ∀ {l : Str}, l.dropWhile p ≠ [] → (l.dropWhile p).getLast? = l.getLast? := by
  intro l
  induction l with
  | nil => intro h; rfl
  | cons a l ih =>
    intro h
    rw [List.dropWhile_cons] at h ⊢
    by_cases hp : p a
    · rw [if_pos hp] at h ⊢
      have hl : l ≠ [] := by
        intro he; subst he; simp [List.dropWhile] at h
      obtain ⟨x, xs, rfl⟩ := List.exists_cons_of_ne_nil hl
      rw [ih h, List.getLast?_cons_cons]
    · rw [if_neg hp]

lemma dropWhile_eq_self_of_head {p : Char → Bool} {l : Str}
    (h : ∀ c t, l = c :: t → p c = false) : l.dropWhile p = l := by
  cases l with
  | nil => rfl
  | cons a t => rw [List.dropWhile_cons, h a t rfl]; simp

lemma dropWhile_idem {p : Char → Bool} (l : Str) :
    (l.dropWhile p).dropWhile p = l.dropWhile p := by
  cases h : l.dropWhile p with
  | nil => rfl
  | cons c t =>
    rw [List.dropWhile_cons, dropWhile_head_false h]
    simp

lemma stripChars_eq_self_of_ends {l : Str}
    (hh : ∀ c t, l = c :: t → isSpaceChar c = false)
    (hl : ∀ c t, l.reverse = c :: t → isSpaceChar c = false) :
    stripChars l = l := by
  unfold stripChars
  rw [dropWhile_eq_self_of_head hh, dropWhile_eq_self_of_head hl]
  exact List.reverse_reverse l

lemma stripChars_idem (s : Str) : stripChars (stripChars s) = stripChars s := by
  have hB : stripChars s =
      ((s.dropWhile isSpaceChar).reverse.dropWhile isSpaceChar).reverse := rfl
  apply stripChars_eq_self_of_ends
  · intro c t h
    have hg : ((s.dropWhile isSpaceChar).reverse.dropWhile isSpaceChar).getLast? =
        some c := by
      rw [← List.head?_reverse, ← hB, h]; rfl
    have hne : (s.dropWhile isSpaceChar).reverse.dropWhile isSpaceChar ≠ [] := by
      intro he; rw [he] at hg; simp at hg
    rw [dropWhile_getLast? hne, List.getLast?_reverse] at hg
    cases hu : s.dropWhile isSpaceChar with
    | nil => rw [hu] at hg; simp at hg
    | cons e t' =>
      rw [hu] at hg
      have he : e = c := by simpa using hg
      subst he
      exact dropWhile_head_false hu
  · intro c t h
    rw [hB, List.reverse_reverse] at h
    exact dropWhile_head_false h

lemma stripChars_eq_self_of_all {s : Str}
    (h : ∀ c ∈ s, isSpaceChar c = false) : stripChars s = s := by
  unfold stripChars
  rw [dropWhile_eq_self_of_all h]
  rw [dropWhile_eq_self_of_all (by intro c hc; exact h c (List.mem_reverse.mp hc))]
  exact List.reverse_reverse s

/-! ## Decimal digit and `str(n)` lemmas -/

lemma digitChar_isDigitChar : ∀ k < 10, isDigitChar (Nat.digitChar k) = true := by
  decide

lemma digitVal_digitChar : ∀ k < 10, digitVal (Nat.digitChar k) = k := by decide

lemma digit_not_special :
    ∀ c ∈ chars "0123456789",
      isSpaceChar c = false ∧ c ≠ '.' ∧ c ≠ '+' ∧ c ≠ '-' := by decide

lemma mem_digits_of_isDigitChar {c : Char} (h : isDigitChar c = true) :
    c ∈ chars "0123456789" := of_decide_eq_true h

lemma natDigitsRevFuel_all :
    ∀ fuel n, n < fuel → ∀ c ∈ natDigitsRevFuel fuel n, isDigitChar c = true := by
  intro fuel
  induction fuel with
  | zero => intro n h; omega
  | succ fuel ih =>
    intro n _ c hc
    rw [natDigitsRevFuel] at hc
    by_cases h10 : n < 10
    · rw [if_pos h10] at hc
      have : c = Nat.digitChar n := by simpa using hc
      subst this
      exact digitChar_isDigitChar n h10
    · rw [if_neg h10] at hc
      rcases List.mem_cons.mp hc with h | h
      · subst h
        exact digitChar_isDigitChar _ (Nat.mod_lt n (by omega))
      · have hdiv : n / 10 < fuel := by
          have := Nat.div_lt_self (by omega : 0 < n) (by omega : 1 < 10)
          omega
        exact ih (n / 10) hdiv c h

lemma natDigitsRevFuel_ne_nil :
    ∀ fuel n, n < fuel → natDigitsRevFuel fuel n ≠ [] := by
  intro fuel n h
  cases fuel with
  | zero => omega
  | succ fuel =>
    rw [natDigitsRevFuel]
    by_cases h10 : n < 10
    · rw [if_pos h10]; exact List.cons_ne_nil _ _
    · rw [if_neg h10]; exact List.cons_ne_nil _ _

lemma foldl_natDigitsRevFuel :
    ∀ fuel n, n < fuel → ∀ acc : Nat,
      (natDigitsRevFuel fuel n).reverse.foldl (fun a c => 10 * a + digitVal c) acc =
        acc * 10 ^ (natDigitsRevFuel fuel n).length + n := by
  intro fuel
  induction fuel with
  | zero => intro n h; omega
  | succ fuel ih =>
    intro n hn acc
    rw [natDigitsRevFuel]
    by_cases h10 : n < 10
    · rw [if_pos h10]
      simp [digitVal_digitChar n h10]
      ring
    · rw [if_neg h10]
      have hdiv : n / 10 < fuel := by
        have := Nat.div_lt_self (by omega : 0 < n) (by omega : 1 < 10)
        omega
      rw [List.reverse_cons, List.foldl_append, ih (n / 10) hdiv acc]
      simp only [List.foldl_cons, List.foldl_nil, List.length_cons]
      rw [digitVal_digitChar _ (Nat.mod_lt n (by omega))]
      rw [pow_succ]
      have : 10 * (n / 10) + n % 10 = n := Nat.div_add_mod n 10
      ring_nf
      omega

lemma natToChars_all {n : Nat} : ∀ c ∈ natToChars n, isDigitChar c = true := by
  intro c hc
  rw [natToChars, List.mem_reverse] at hc
  exact natDigitsRevFuel_all (n + 1) n (Nat.lt_succ_self n) c hc

lemma natToChars_ne_nil (n : Nat) : natToChars n ≠ [] := by
  rw [natToChars]
  intro h
  exact natDigitsRevFuel_ne_nil (n + 1) n (Nat.lt_succ_self n)
    (by simpa using congrArg List.reverse h)

lemma natValOfDigits_natToChars (n : Nat) : natValOfDigits (natToChars n) = n := by
  rw [natValOfDigits, natToChars,
    foldl_natDigitsRevFuel (n + 1) n (Nat.lt_succ_self n) 0]
  simp

lemma allDigits_natToChars (n : Nat) : allDigits (natToChars n) = true := by
  rw [allDigits, List.all_eq_true]
  exact natToChars_all

lemma stripChars_natToChars (n : Nat) : stripChars (natToChars n) = natToChars n :=
  stripChars_eq_self_of_all fun c hc =>
    (digit_not_special c (mem_digits_of_isDigitChar (natToChars_all c hc))).1

lemma pyIntParse_natToChars (n : Nat) : pyIntParse (natToChars n) = some (n : Int) := by
  rw [pyIntParse, stripChars_natToChars]
  cases h : natToChars n with
  | nil => exact absurd h (natToChars_ne_nil n)
  | cons c rest =>
    have hc : c ∈ chars "0123456789" :=
      mem_digits_of_isDigitChar (natToChars_all c (h ▸ List.mem_cons_self c rest))
    obtain ⟨-, -, hplus, hminus⟩ := digit_not_special c hc
    rw [pyIntCore, if_neg hplus, if_neg hminus,
      if_pos (h ▸ allDigits_natToChars n), ← h, natValOfDigits_natToChars]

lemma intToChars_ofNat (n : Nat) : intToChars (n : Int) = natToChars n := by
  rw [intToChars, if_neg (by omega), Int.toNat_natCast]

/-! ## `splitDot` lemmas -/

lemma splitDot_length (s : Str) : (splitDot s).length = s.count '.' + 1 := by
  induction s with
  | nil => rfl
  | cons c cs ih =>
    rw [splitDot]
    by_cases hc : c = '.'
    · rw [if_pos hc, List.length_cons, ih, List.count_cons, if_pos (by simp [hc])]
    · rw [if_neg hc]
      cases h : splitDot cs with
      | nil => rw [h] at ih; simp at ih
      | cons g gs =>
        rw [h] at ih
        rw [List.length_cons, List.count_cons, if_neg (by simp [hc])]
        simpa using ih

lemma splitDot_ne_nil (s : Str) : splitDot s ≠ [] := by
  intro h
  have := splitDot_length s
  rw [h] at this
  simp at this

lemma splitDot_no_dot {s : Str} (h : ∀ c ∈ s, c ≠ '.') : splitDot s = [s] := by
  induction s with
  | nil => rfl
  | cons c cs ih =>
    rw [splitDot, if_neg (h c (List.mem_cons_self c cs)),
      ih fun d hd => h d (List.mem_cons_of_mem c hd)]

lemma splitDot_append {xs : Str} (h : ∀ c ∈ xs, c ≠ '.') (ys : Str) :
    splitDot (xs ++ '.' :: ys) = xs :: splitDot ys := by
  induction xs with
  | nil => simp [splitDot]
  | cons c xs ih =>
    rw [List.cons_append, splitDot, if_neg (h c (List.mem_cons_self c xs)),
      ih fun d hd => h d (List.mem_cons_of_mem c hd)]

lemma splitDot_version (a b : Nat) :
    splitDot (natToChars a ++ ['.'] ++ natToChars b) =
      [natToChars a, natToChars b] := by
  have hnd : ∀ n : Nat, ∀ c ∈ natToChars n, c ≠ '.' := fun n c hc =>
    (digit_not_special c (mem_digits_of_isDigitChar (natToChars_all c hc))).2.1
  rw [List.append_assoc, List.singleton_append, splitDot_append (hnd a),
    splitDot_no_dot (hnd b)]

/-! ## `buildCells` lemmas -/

lemma codeCellInit_serializeCell (i : Str) (s : List Str) (ec : Int) :
    codeCellInit (serializeCell (Cell.code i s ec)) = Except.ok (Cell.code i s ec) := by
  simp [serializeCell, serializeCellBase, codeCellInit, cellInit, cellId, sourceOf]

lemma markdownCellInit_serializeCell (i : Str) (s : List Str) :
    markdownCellInit (serializeCell (Cell.markdown i s)) =
      Except.ok (Cell.markdown i s) := by
  simp [serializeCell, serializeCellBase, markdownCellInit, cellInit, cellId, sourceOf]

lemma chars_code_ne_markdown : ¬ (chars "code" = chars "markdown") := by decide

lemma chars_markdown_ne_code : ¬ (chars "markdown" = chars "code") := by decide

lemma buildCells_serializeCell :
    ∀ cells : List Cell, buildCells (cells.map serializeCell) = Except.ok cells := by
  intro cells
  induction cells with
  | nil => rfl
  | cons c rest ih =>
    cases c with
    | code i s ec =>
      simp [buildCells, dictGet, serializeCell, serializeCellBase, codeCellInit,
        cellInit, cellId, sourceOf, ih, Except.map, chars_code_ne_markdown]
    | markdown i s =>
      simp [buildCells, dictGet, serializeCell, serializeCellBase, markdownCellInit,
        cellInit, cellId, sourceOf, ih, Except.map, chars_markdown_ne_code]

lemma codeCellInit_ok {rc : RawCell} (hid : rc.id.isSome) (hsrc : rc.source.isSome)
    (hec : rc.execution_count.isSome) :
    codeCellInit rc =
      Except.ok (Cell.code (rc.id.get hid) (rc.source.get hsrc)
        (rc.execution_count.get hec)) := by
  obtain ⟨i, hi⟩ := Option.isSome_iff_exists.mp hid
  obtain ⟨s, hs⟩ := Option.isSome_iff_exists.mp hsrc
  obtain ⟨e, he⟩ := Option.isSome_iff_exists.mp hec
  simp [codeCellInit, cellInit, hi, hs, he]

lemma markdownCellInit_ok {rc : RawCell} (hid : rc.id.isSome)
    (hsrc : rc.source.isSome) :
    markdownCellInit rc =
      Except.ok (Cell.markdown (rc.id.get hid) (rc.source.get hsrc)) := by
  obtain ⟨i, hi⟩ := Option.isSome_iff_exists.mp hid
  obtain ⟨s, hs⟩ := Option.isSome_iff_exists.mp hsrc
  simp [markdownCellInit, cellInit, hi, hs]

lemma buildCells_wf :
    ∀ raws : List RawCell, (∀ rc ∈ raws, rawCellWF rc = true) →
      buildCells raws = Except.ok (raws.filterMap specRetain) := by
  intro raws
  induction raws with
  | nil => intro _; rfl
  | cons rc rest ih =>
    intro hwf
    have hrc : rawCellWF rc = true := hwf rc (List.mem_cons_self rc rest)
    have hrest : buildCells rest = Except.ok (rest.filterMap specRetain) :=
      ih fun x hx => hwf x (List.mem_cons_of_mem rc hx)
    rw [rawCellWF, Bool.and_eq_true, Bool.and_eq_true] at hrc
    obtain ⟨⟨hct, hcode⟩, hmd⟩ := hrc
    obtain ⟨ct, hcteq⟩ := Option.isSome_iff_exists.mp hct
    by_cases h1 : ct = PyVal.str (chars "code")
    · subst h1
      rw [if_pos hcteq, Bool.and_eq_true, Bool.and_eq_true] at hcode
      obtain ⟨⟨hid, hsrc⟩, hec⟩ := hcode
      simp [buildCells, dictGet, hcteq, codeCellInit_ok hid hsrc hec, specRetain,
        hrest, Except.map, Except.toOption, chars_code_ne_markdown,
        List.filterMap_cons]
    · by_cases h2 : ct = PyVal.str (chars "markdown")
      · subst h2
        rw [if_pos hcteq, Bool.and_eq_true] at hmd
        obtain ⟨hid, hsrc⟩ := hmd
        simp [buildCells, dictGet, hcteq, markdownCellInit_ok hid hsrc, specRetain,
          hrest, Except.map, Except.toOption, chars_markdown_ne_code,
          List.filterMap_cons]
      · simp [buildCells, dictGet, hcteq, h1, h2, specRetain, hrest,
          List.filterMap_cons]

lemma specRetain_isSome {rc : RawCell} (hwf : rawCellWF rc = true) :
    (specRetain rc).isSome = recognizedType rc := by
  rw [rawCellWF, Bool.and_eq_true, Bool.and_eq_true] at hwf
  obtain ⟨⟨-, hcode⟩, hmd⟩ := hwf
  by_cases h1 : rc.cell_type = some (PyVal.str (chars "code"))
  · rw [if_pos h1, Bool.and_eq_true, Bool.and_eq_true] at hcode
    obtain ⟨⟨hid, hsrc⟩, hec⟩ := hcode
    rw [specRetain, if_pos h1, codeCellInit_ok hid hsrc hec, recognizedType]
    simp [h1, Except.toOption]
  · by_cases h2 : rc.cell_type = some (PyVal.str (chars "markdown"))
    · rw [if_pos h2, Bool.and_eq_true] at hmd
      obtain ⟨hid, hsrc⟩ := hmd
      rw [specRetain, if_neg h1, if_pos h2, markdownCellInit_ok hid hsrc,
        recognizedType]
      simp [h2, Except.toOption]
    · rw [specRetain, if_neg h1, if_neg h2, recognizedType]
      simp [h1, h2]

lemma filterMap_specRetain_length :
    ∀ raws : List RawCell, (∀ rc ∈ raws, rawCellWF rc = true) →
      (raws.filterMap specRetain).length +
        (raws.filter (fun rc => !recognizedType rc)).length = raws.length := by
  intro raws
  induction raws with
  | nil => intro _; rfl
  | cons rc rest ih =>
    intro hwf
    have hrc := specRetain_isSome (hwf rc (List.mem_cons_self rc rest))
    have hrest := ih fun x hx => hwf x (List.mem_cons_of_mem rc hx)
    rw [List.filterMap_cons, List.filter_cons]
    cases hr : recognizedType rc with
    | true =>
      rw [hr] at hrc
      obtain ⟨c, hc⟩ := Option.isSome_iff_exists.mp hrc
      simp [hc, hr, List.length_cons]
      omega
    | false =>
      rw [hr] at hrc
      have hnone : specRetain rc = none := by
        cases hsp : specRetain rc with
        | none => rfl
        | some c => rw [hsp] at hrc; simp at hrc
      simp [hnone, hr, List.length_cons]
      omega

/-! ## `serialize` inversion and fold lemmas -/

lemma serialize_ok_inv {nb : Notebook} {raw : RawNotebook}
    (h : serialize nb = Except.ok raw) :
    (∃ h1 h2, splitDot nb.version = [h1, h2] ∧
      pyIntParse h1 = some raw.nbformat ∧ pyIntParse h2 = some raw.nbformat_minor) ∧
    raw.cells = nb.cells.map serializeCell := by
  cases hs : splitDot nb.version with
  | nil => exact absurd hs (splitDot_ne_nil _)
  | cons a t =>
    cases t with
    | nil => simp only [serialize, hs] at h; exact absurd h (by simp)
    | cons b t2 =>
      cases t2 with
      | nil =>
        simp only [serialize, hs] at h
        cases hpa : pyIntParse a with
        | none => simp only [hpa] at h; exact absurd h (by simp)
        | some ia =>
          cases hpb : pyIntParse b with
          | none => simp only [hpa, hpb] at h; exact absurd h (by simp)
          | some ib =>
            simp only [hpa, hpb, Except.ok.injEq] at h
            subst h
            exact ⟨⟨a, b, rfl, hpa, hpb⟩, rfl⟩
      | cons c t3 => simp only [serialize, hs] at h; exact absurd h (by simp)

lemma foldl_snd_eq {α β γ : Type} (f : α × β → γ → α × β)
    (hf : ∀ acc c, (f acc c).2 = acc.2) :
    ∀ (l : List γ) (x : α × β), (l.foldl f x).2 = x.2 := by
  intro l
  induction l with
  | nil => intro x; rfl
  | cons c t ih => intro x; rw [List.foldl_cons, ih, hf]

lemma foldl_fst_append {β γ σ : Type} (f : γ → List σ)
    (step : List σ × β → γ → List σ × β)
    (hstep : ∀ acc c, step acc c = (acc.1 ++ f c, acc.2)) :
    ∀ (l : List γ) (x : List σ × β),
      (l.foldl step x).1 = x.1 ++ (l.map f).flatten := by
  intro l
  induction l with
  | nil => intro x; simp
  | cons c t ih =>
    intro x
    rw [List.foldl_cons, hstep, ih, List.map_cons, List.flatten_cons,
      List.append_assoc]

lemma flatten_singletons {σ γ : Type} (f : γ → σ) (l : List γ) :
    (l.map fun c => [f c]).flatten = l.map f := by
  induction l with
  | nil => rfl
  | cons c t ih => simp [ih]

/-! ## Claim theorems -/

/-- C1: JSON round-trip: for every Notebook whose version is well-formed,
loading the structure produced by `Serializer.serialize` (written and
re-read unchanged by `to_file`/`from_file`) yields a Notebook with the
same cells — the same sequence of (id, cell_type, source,
execution_count-if-code) tuples — and the same version string. -/
theorem C1_json_round_trip (nb : Notebook) (h : wellFormedVersion nb.version) :
    ∃ raw : RawNotebook,
      serialize nb = Except.ok raw ∧ notebookInit raw = Except.ok nb := by
  obtain ⟨v, cells⟩ := nb
  obtain ⟨a, b, hv⟩ := h
  dsimp only at hv
  subst hv
  refine ⟨⟨cells.map serializeCell, (a : Int), (b : Int), []⟩, ?_, ?_⟩
  · simp only [serialize, splitDot_version, pyIntParse_natToChars]
  · simp only [notebookInit, buildCells_serializeCell, get_format_version,
      intToChars_ofNat]

/-- Witness for C1 at a concrete notebook. -/
theorem C1_json_round_trip_witness :
    wellFormedVersion nbHello.version ∧
      ∃ raw : RawNotebook,
        serialize nbHello = Except.ok raw ∧ notebookInit raw = Except.ok nbHello :=
  ⟨⟨4, 5, by decide⟩, C1_json_round_trip nbHello ⟨4, 5, by decide⟩⟩

/-- C2: Notebook construction retains exactly the raw entries whose
`cell_type` is `"code"` (as a code cell) or `"markdown"` (as a markdown
cell), in their original relative order, and silently drops every other
entry, so the cell count drops by exactly the number of unrecognized
entries; stated for raw structures that carry the keys the constructor
reads. -/
theorem C2_construct_retains (raw : RawNotebook)
    (h : ∀ rc ∈ raw.cells, rawCellWF rc = true) :
    ∃ nb : Notebook, notebookInit raw = Except.ok nb ∧
      nb.cells = raw.cells.filterMap specRetain ∧
      nb.cells.length +
        (raw.cells.filter (fun rc => !recognizedType rc)).length =
        raw.cells.length := by
  refine ⟨⟨get_format_version raw, raw.cells.filterMap specRetain⟩, ?_, rfl, ?_⟩
  · simp only [notebookInit, buildCells_wf raw.cells h]
  · exact filterMap_specRetain_length raw.cells h

/-- Witness for C2 at a raw notebook mixing code, unrecognized and
markdown entries. -/
theorem C2_construct_retains_witness :
    (∀ rc ∈ rawSample.cells, rawCellWF rc = true) ∧
      ∃ nb : Notebook, notebookInit rawSample = Except.ok nb ∧
        nb.cells = rawSample.cells.filterMap specRetain ∧
        nb.cells.length +
          (rawSample.cells.filter (fun rc => !recognizedType rc)).length =
          rawSample.cells.length :=
  ⟨by decide, C2_construct_retains rawSample (by decide)⟩

/-- C3: `Serializer.serialize` fails exactly when the version string does
not contain exactly one `'.'` or either half fails integer conversion;
on success `nbformat`/`nbformat_minor` are the parsed halves, with
`"4.5"` giving 4 and 5 and `"10.2"` giving 10 and 2. -/
theorem C3_version_split :
    (∀ nb : Notebook, exceptOk (serialize nb) = goodVersionB nb.version) ∧
    (∀ (nb : Notebook) (raw : RawNotebook), serialize nb = Except.ok raw →
      ∃ h1 h2, splitDot nb.version = [h1, h2] ∧
        pyIntParse h1 = some raw.nbformat ∧
        pyIntParse h2 = some raw.nbformat_minor) ∧
    serialize ⟨chars "4.5", []⟩ = Except.ok ⟨[], 4, 5, []⟩ ∧
    serialize ⟨chars "10.2", []⟩ = Except.ok ⟨[], 10, 2, []⟩ := by
  refine ⟨?_, fun nb raw h => (serialize_ok_inv h).1, by decide, by decide⟩
  intro nb
  have hlen := splitDot_length nb.version
  cases hs : splitDot nb.version with
  | nil => exact absurd hs (splitDot_ne_nil _)
  | cons a t =>
    rw [hs] at hlen
    cases t with
    | nil =>
      have hc : nb.version.count '.' = 0 := by simp at hlen; omega
      simp [serialize, hs, exceptOk, goodVersionB, hc, hs]
    | cons b t2 =>
      cases t2 with
      | nil =>
        have hc : nb.version.count '.' = 1 := by simp at hlen; omega
        cases hpa : pyIntParse a with
        | none => simp [serialize, hs, hpa, exceptOk, goodVersionB, hc]
        | some ia =>
          cases hpb : pyIntParse b with
          | none => simp [serialize, hs, hpa, hpb, exceptOk, goodVersionB, hc]
          | some ib => simp [serialize, hs, hpa, hpb, exceptOk, goodVersionB, hc]
      | cons c t3 =>
        have hc : ¬ (nb.version.count '.' = 1) := by simp at hlen; omega
        simp [serialize, hs, exceptOk, goodVersionB, hc]

/-- Witness for C3's success-shape conjunct at a concrete notebook. -/
theorem C3_version_split_witness :
    serialize (⟨chars "4.5", []⟩ : Notebook) =
        Except.ok (⟨[], 4, 5, []⟩ : RawNotebook) ∧
      ∃ h1 h2, splitDot (Notebook.mk (chars "4.5") []).version = [h1, h2] ∧
        pyIntParse h1 = some (RawNotebook.mk [] 4 5 []).nbformat ∧
        pyIntParse h2 = some (RawNotebook.mk [] 4 5 []).nbformat_minor :=
  ⟨by decide, C3_version_split.2.1 ⟨chars "4.5", []⟩ ⟨[], 4, 5, []⟩ (by decide)⟩

/-- C4: `to_py_percent` emits, per cell, a blank separator line, then the
marker (`"# %% [markdown]"` with each stripped source line prefixed
`"# "`, or `"# %%"` with unprefixed stripped lines), and the accumulated
text is stripped as a whole so it never starts or ends with a blank line;
on the single-code-cell hello-world notebook it yields exactly
`"# %%\nprint(\"Hello world!\")"`. -/
theorem C4_py_percent_format :
    (∀ nb : Notebook, stripChars (to_py_percent nb) = to_py_percent nb) ∧
    (∀ (i : Str) (src : List Str),
      pyPercentCellText (Cell.markdown i src) =
        chars "\n" ++ chars "# %% [markdown]" ++ chars "\n" ++
          (chars "# " ++ joinSep (chars "\n# ") (src.map stripChars)) ++
          chars "\n") ∧
    (∀ (i : Str) (src : List Str) (ec : Int),
      pyPercentCellText (Cell.code i src ec) =
        chars "\n" ++ chars "# %%" ++ chars "\n" ++
          joinSep (chars "\n") (src.map stripChars) ++ chars "\n") ∧
    to_py_percent nbHello = chars "# %%\nprint(\"Hello world!\")" :=
  ⟨fun nb => stripChars_idem _, fun i src => rfl, fun i src ec => rfl, by decide⟩

/-- C5: a cell with an empty source list produces its marker line followed
by an empty body — for code cells nothing at all after the marker once the
whole text is stripped, for markdown cells only the bare comment prefix —
and the serializer does not fail on it. -/
theorem C5_empty_source :
    (∀ (i : Str) (ec : Int),
      pyPercentCellText (Cell.code i [] ec) = chars "\n# %%\n\n") ∧
    (∀ i : Str,
      pyPercentCellText (Cell.markdown i []) = chars "\n# %% [markdown]\n# \n") ∧
    (∀ (v i : Str) (ec : Int),
      to_py_percent ⟨v, [Cell.code i [] ec]⟩ = chars "# %%") ∧
    (∀ v i : Str,
      to_py_percent ⟨v, [Cell.markdown i []]⟩ = chars "# %% [markdown]\n#") :=
  ⟨fun _ _ => rfl, fun _ => rfl, fun _ _ _ => rfl, fun _ _ => rfl⟩

/-- C6 counterexample: on a notebook with version "4.5" and no cells,
`Outliner.outline` does NOT yield `"Jupyter Notebook v4.5\n"` — the final
newline is cut by `text[:-1]`, so the claimed output string is wrong. -/
theorem C6_counterexample :
    ¬ (outline ⟨chars "4.5", []⟩ = chars "Jupyter Notebook v4.5\n") := by decide

/-- C6 (amended): `Outliner.outline` on a notebook with version "4.5" and
no cells yields exactly `"Jupyter Notebook v4.5"` — the header line only,
with no trailing newline. -/
theorem C6_outline_empty :
    outline ⟨chars "4.5", []⟩ = chars "Jupyter Notebook v4.5" := by decide

/-- C7: the outliner's glyph for each source line follows the spec's
description — one-line sources get `"|"`; otherwise a line equal to
`source[0]` gets `"┌ "`, else one equal to `source[-1]` gets `"└ "`, else
`"│ "`, first-line check first — and matching is by content, so in a
two-line cell with identical lines both lines get `"┌ "`; each rendered
line is the four-space indent, the glyph, a space and the stripped
line. -/
theorem C7_outline_glyphs :
    (∀ (source : List Str) (line : Str), line ∈ source →
      outlineLineStart source line = claimGlyph source line) ∧
    (∀ l : Str, outlineLineStart [l, l] l = chars "┌ ") ∧
    (∀ c : Cell,
      outlineCellText c = outlineCellHeader c ++
        ((sourceOf c).map fun line =>
          chars "    " ++ outlineLineStart (sourceOf c) line ++ [' '] ++
            stripChars line ++ ['\n']).flatten) := by
  refine ⟨?_, ?_, fun c => rfl⟩
  · intro source line hmem
    cases source with
    | nil => cases hmem
    | cons a t =>
      cases t with
      | nil => rfl
      | cons b t2 =>
        rw [outlineLineStart, claimGlyph, List.length_cons, List.length_cons,
          if_pos (show 1 < t2.length + 1 + 1 by omega),
          if_neg (show ¬ (t2.length + 1 + 1 = 1) by omega)]
  · intro l
    rw [outlineLineStart, if_pos (by simp), if_pos (by simp)]

/-- Witness for C7's glyph-equivalence conjunct at a concrete source
list and member line. -/
theorem C7_outline_glyphs_witness :
    (chars "x") ∈ [chars "x", chars "y"] ∧
      outlineLineStart [chars "x", chars "y"] (chars "x") =
        claimGlyph [chars "x", chars "y"] (chars "x") :=
  ⟨by decide, C7_outline_glyphs.1 [chars "x", chars "y"] (chars "x") (by decide)⟩

/-- C8: cell construction fails exactly when a required key is absent:
every cell requires `id` and `source`, and a code cell additionally
requires `execution_count`. -/
theorem C8_required_fields (rc : RawCell) :
    exceptOk (markdownCellInit rc) = (rc.id.isSome && rc.source.isSome) ∧
    exceptOk (codeCellInit rc) =
      (rc.id.isSome && rc.source.isSome && rc.execution_count.isSome) := by
  obtain ⟨ct, i, s, ec, o, m⟩ := rc
  cases i <;> cases s <;> cases ec <;>
    simp [markdownCellInit, codeCellInit, cellInit, exceptOk]

/-- C9: the serializers never mutate the notebook: with the notebook
threaded through each loop as explicit state, `serialize`,
`to_py_percent` and `outline` all return it unchanged (version, cells and
each cell's fields intact), produce the same output as their pure
counterparts, and re-iterating the returned notebook yields the same cell
sequence in document order. -/
theorem C9_immutable (nb : Notebook) :
    (serializeRun nb).2 = nb ∧ (toPyPercentRun nb).2 = nb ∧
    (outlineRun nb).2 = nb ∧
    (toPyPercentRun nb).1 = to_py_percent nb ∧
    (outlineRun nb).1 = outline nb ∧
    (serializeRun nb).1 = serialize nb ∧
    nbIterate (serializeRun nb).2 = nbIterate nb ∧
    nbIterate (toPyPercentRun nb).2 = nbIterate nb ∧
    nbIterate (outlineRun nb).2 = nbIterate nb := by
  have hpp2 : (toPyPercentRun nb).2 = nb := by
    simp only [toPyPercentRun, Prod.map]
    exact foldl_snd_eq pyPercentStep (fun acc c => rfl) (nbIterate nb) ([], nb)
  have hol2 : (outlineRun nb).2 = nb := by
    simp only [outlineRun, Prod.map]
    exact foldl_snd_eq outlineStep (fun acc c => rfl) (nbIterate nb) _
  have hser : (serializeRun nb).1 = serialize nb ∧ (serializeRun nb).2 = nb := by
    cases hs : splitDot nb.version with
    | nil => constructor <;> simp [serializeRun, serialize, hs]
    | cons a t =>
      cases t with
      | nil => constructor <;> simp [serializeRun, serialize, hs]
      | cons b t2 =>
        cases t2 with
        | nil =>
          cases hpa : pyIntParse a with
          | none => constructor <;> simp [serializeRun, serialize, hs, hpa]
          | some ia =>
            cases hpb : pyIntParse b with
            | none => constructor <;> simp [serializeRun, serialize, hs, hpa, hpb]
            | some ib =>
              constructor
              · simp only [serializeRun, serialize, hs, hpa, hpb]
                rw [foldl_fst_append (fun c => [serializeCell c]) serializeStep
                  (fun acc c => rfl), flatten_singletons]
                rfl
              · simp only [serializeRun, hs, hpa, hpb]
                exact foldl_snd_eq serializeStep (fun acc c => rfl) (nbIterate nb) _
        | cons c t3 => constructor <;> simp [serializeRun, serialize, hs]
  refine ⟨hser.2, hpp2, hol2, ?_, ?_, hser.1, by rw [hser.2], by rw [hpp2],
    by rw [hol2]⟩
  · simp only [toPyPercentRun, Prod.map]
    rw [foldl_fst_append pyPercentCellText pyPercentStep (fun acc c => rfl)]
    rfl
  · simp only [outlineRun, Prod.map]
    rw [foldl_fst_append outlineCellText outlineStep (fun acc c => rfl)]
    rfl

/-- C10: in the structure returned by `Serializer.serialize`, every cell
entry's `cell_type` is exactly `"markdown"` or `"code"`; the placeholder
`0` the entry is initialized with never survives, because every cell is
one of the two variants. -/
theorem C10_cell_type_overwritten :
    (∀ c : Cell,
      (serializeCell c).cell_type = some (PyVal.str (chars "markdown")) ∨
      (serializeCell c).cell_type = some (PyVal.str (chars "code"))) ∧
    (∀ c : Cell, ¬ ((serializeCell c).cell_type = some (PyVal.int 0))) ∧
    (∀ (nb : Notebook) (raw : RawNotebook), serialize nb = Except.ok raw →
      ∀ rc ∈ raw.cells,
        rc.cell_type = some (PyVal.str (chars "markdown")) ∨
        rc.cell_type = some (PyVal.str (chars "code"))) := by
  have h1 : ∀ c : Cell,
      (serializeCell c).cell_type = some (PyVal.str (chars "markdown")) ∨
      (serializeCell c).cell_type = some (PyVal.str (chars "code")) := by
    intro c
    cases c with
    | code i s ec => exact Or.inr rfl
    | markdown i s => exact Or.inl rfl
  refine ⟨h1, ?_, ?_⟩
  · intro c h
    cases c <;> simp [serializeCell, serializeCellBase] at h
  · intro nb raw hok rc hmem
    rw [(serialize_ok_inv hok).2] at hmem
    obtain ⟨c, -, rfl⟩ := List.mem_map.mp hmem
    exact h1 c

/-- Witness for C10's serialized-structure conjunct at a concrete
notebook. -/
theorem C10_cell_type_overwritten_witness :
    (serialize nbMixed = Except.ok rawMixed ∧ rawMixedCellMd ∈ rawMixed.cells) ∧
      (rawMixedCellMd.cell_type = some (PyVal.str (chars "markdown")) ∨
        rawMixedCellMd.cell_type = some (PyVal.str (chars "code"))) :=
  ⟨⟨by decide, by decide⟩,
    C10_cell_type_overwritten.2.2 nbMixed rawMixed (by decide) rawMixedCellMd
      (by decide)⟩

end NotebookV1
